import Mathlib

/-!
Verification development for the EnterpriseMonitoring core: the IPC envelope
codec (`IPCMessage.to_json` / `IPCMessage.from_json`), the transport client's
bounded outbound queue (`IPCClient.send_message`, `IPCClient._flush_queue`,
`IPCClient.connect`), and the sync engine over the persisted record store
(`ServiceWatchdog.sync_data_to_server`, `DatabaseManager.cleanup_old_data`,
`DatabaseManager.get_statistics`).

Python values exchanged through the JSON interchange layer are embedded as an
inductive `Json` tree; JSON numbers are modelled as rationals (Python floats
round-trip exactly through `json.dumps`/`json.loads`, and no claim depends on
float rounding).  `json.dumps` followed by `json.loads` is the identity on
such trees, so the codec is stated at the tree level; a frame body whose text
is not valid JSON is represented by `none`.
-/

namespace EnterpriseMonitoring

/-! ## JSON interchange values -/

/-- Values of the JSON interchange format: Python `None`/`bool`/numbers/`str`
lists and dicts as produced by `json.loads` and consumed by `json.dumps`.
Object fields keep insertion order, as Python dicts do. -/
inductive Json where
  | null
  | bool (b : Bool)
  | num (q : ℚ)
  | str (s : String)
  | arr (elems : List Json)
  | obj (fields : List (String × Json))

mutual

def Json.decEq : (a b : Json) → Decidable (a = b)
  | .null, .null => .isTrue rfl
  | .null, .bool _ => .isFalse nofun
  | .null, .num _ => .isFalse nofun
  | .null, .str _ => .isFalse nofun
  | .null, .arr _ => .isFalse nofun
  | .null, .obj _ => .isFalse nofun
  | .bool _, .null => .isFalse nofun
  | .bool a, .bool b =>
    if h : a = b then .isTrue (by rw [h]) else .isFalse (fun hh => h (Json.bool.inj hh))
  | .bool _, .num _ => .isFalse nofun
  | .bool _, .str _ => .isFalse nofun
  | .bool _, .arr _ => .isFalse nofun
  | .bool _, .obj _ => .isFalse nofun
  | .num _, .null => .isFalse nofun
  | .num _, .bool _ => .isFalse nofun
  | .num a, .num b =>
    if h : a = b then .isTrue (by rw [h]) else .isFalse (fun hh => h (Json.num.inj hh))
  | .num _, .str _ => .isFalse nofun
  | .num _, .arr _ => .isFalse nofun
  | .num _, .obj _ => .isFalse nofun
  | .str _, .null => .isFalse nofun
  | .str _, .bool _ => .isFalse nofun
  | .str _, .num _ => .isFalse nofun
  | .str a, .str b =>
    if h : a = b then .isTrue (by rw [h]) else .isFalse (fun hh => h (Json.str.inj hh))
  | .str _, .arr _ => .isFalse nofun
  | .str _, .obj _ => .isFalse nofun
  | .arr _, .null => .isFalse nofun
  | .arr _, .bool _ => .isFalse nofun
  | .arr _, .num _ => .isFalse nofun
  | .arr _, .str _ => .isFalse nofun
  | .arr xs, .arr ys =>
    match Json.decEqList xs ys with
    | .isTrue h => .isTrue (by rw [h])
    | .isFalse h => .isFalse (fun hh => h (Json.arr.inj hh))
  | .arr _, .obj _ => .isFalse nofun
  | .obj _, .null => .isFalse nofun
  | .obj _, .bool _ => .isFalse nofun
  | .obj _, .num _ => .isFalse nofun
  | .obj _, .str _ => .isFalse nofun
  | .obj _, .arr _ => .isFalse nofun
  | .obj xs, .obj ys =>
    match Json.decEqFields xs ys with
    | .isTrue h => .isTrue (by rw [h])
    | .isFalse h => .isFalse (fun hh => h (Json.obj.inj hh))

def Json.decEqList : (xs ys : List Json) → Decidable (xs = ys)
  | [], [] => .isTrue rfl
  | [], _ :: _ => .isFalse nofun
  | _ :: _, [] => .isFalse nofun
  | x :: xs, y :: ys =>
    match Json.decEq x y, Json.decEqList xs ys with
    | .isTrue h1, .isTrue h2 => .isTrue (by rw [h1, h2])
    | .isFalse h1, _ => .isFalse (fun hh => h1 (List.cons.inj hh).1)
    | _, .isFalse h2 => .isFalse (fun hh => h2 (List.cons.inj hh).2)

def Json.decEqFields : (xs ys : List (String × Json)) → Decidable (xs = ys)
  | [], [] => .isTrue rfl
  | [], _ :: _ => .isFalse nofun
  | _ :: _, [] => .isFalse nofun
  | (k1, v1) :: xs, (k2, v2) :: ys =>
    if hk : k1 = k2 then
      match Json.decEq v1 v2, Json.decEqFields xs ys with
      | .isTrue h1, .isTrue h2 => .isTrue (by rw [hk, h1, h2])
      | .isFalse h1, _ =>
        .isFalse (fun hh => h1 (congrArg Prod.snd (List.cons.inj hh).1))
      | _, .isFalse h2 => .isFalse (fun hh => h2 (List.cons.inj hh).2)
    else
      .isFalse (fun hh => hk (congrArg Prod.fst (List.cons.inj hh).1))

end

instance : DecidableEq Json := Json.decEq

instance {ε α : Type} [DecidableEq ε] [DecidableEq α] : DecidableEq (Except ε α) :=
  fun a b =>
    match a, b with
    | .ok x, .ok y =>
      if h : x = y then .isTrue (by rw [h]) else .isFalse (fun hh => h (Except.ok.inj hh))
    | .error x, .error y =>
      if h : x = y then .isTrue (by rw [h]) else .isFalse (fun hh => h (Except.error.inj hh))
    | .ok _, .error _ => .isFalse nofun
    | .error _, .ok _ => .isFalse nofun

/-- Python truthiness of a JSON value, as used by `x or y`: `None`, `False`,
zero, the empty string, the empty list and the empty dict are falsy. -/
def Json.truthy : Json → Bool
  | .null => false
  | .bool b => b
  | .num q => q != 0
  | .str s => s != ""
  | .arr xs => !xs.isEmpty
  | .obj fs => !fs.isEmpty

/-- Keys of a JSON object, in order; other values have no keys. -/
def Json.keys : Json → List String
  | .obj fs => fs.map Prod.fst
  | _ => []

/-! ## Configuration constants (src/config.py) -/

namespace Config

/-- Shared IPC secret, `Config.IPC_AUTH_TOKEN` in config.py. -/
def IPC_AUTH_TOKEN : String := "ENTERPRISE_MONITOR_SECRET_2024"

/-- Outbound queue capacity, `Config.MAX_QUEUE_SIZE` in config.py. -/
def MAX_QUEUE_SIZE : Nat := 1000

end Config

set_option maxRecDepth 100000

/-! ## Envelope codec (src/ipc_manager.py, class IPCMessage) -/

/-- Embedding of `IPCMessage`.  The Python constructor annotates `msg_type`
and `auth_token` as `str`, but nothing enforces this at runtime and
`from_json` stores whatever JSON values the frame carried, so every field is
a `Json` value. -/
structure IPCMessage where
  msg_type : Json
  data : Json
  auth_token : Json
  timestamp : Json
  deriving DecidableEq

/-- Embedding of `IPCMessage.__init__`: `auth_token = auth_token or
Config.IPC_AUTH_TOKEN` (the configured secret replaces a missing or falsy
token), and `timestamp = time.time()`, passed in as `now`. -/
def mkIPCMessage (msg_type data : Json) (auth_token : Option Json) (now : ℚ) : IPCMessage :=
  let tok := auth_token.getD Json.null
  { msg_type := msg_type
    data := data
    auth_token := if tok.truthy then tok else Json.str Config.IPC_AUTH_TOKEN
    timestamp := Json.num now }

/-- Embedding of `IPCMessage.to_json`: the frame body is the JSON object with
exactly these four keys, in dict insertion order. -/
def IPCMessage.to_json (m : IPCMessage) : Json :=
  Json.obj [("msg_type", m.msg_type), ("data", m.data),
            ("auth_token", m.auth_token), ("timestamp", m.timestamp)]

/-- Decoding failure: any exception escaping `IPCMessage.from_json`
(`json.JSONDecodeError`, `KeyError`, `TypeError`), the `MalformedFrame` class
of the spec's error taxonomy. -/
inductive DecodeError where
  | malformed
  deriving DecidableEq

/-- Embedding of `IPCMessage.from_json`.  The argument is the parse of the
body text: `none` when the text is not valid JSON (`json.loads` raises).
Subscripting a non-dict raises `TypeError`; a missing `msg_type` or `data`
key raises `KeyError`; `obj.get` returns `None` for a missing key, after
which the constructor substitutes the configured token, and a missing
`timestamp` defaults to `time.time()` (`now`). -/
def IPCMessage.from_json (body : Option Json) (now : ℚ) : Except DecodeError IPCMessage :=
  match body with
  | none => .error .malformed
  | some j =>
    match j with
    | .obj fields =>
      match fields.lookup "msg_type", fields.lookup "data" with
      | some mt, some d =>
        let msg := mkIPCMessage mt d (fields.lookup "auth_token") now
        .ok { msg with timestamp := (fields.lookup "timestamp").getD (Json.num now) }
      | _, _ => .error .malformed
    | _ => .error .malformed

/-! ## Transport client (src/ipc_manager.py, class IPCClient)

The client's mutable state is its `connected` flag, its bounded outbound
`message_queue` (a FIFO `Queue(maxsize=Config.MAX_QUEUE_SIZE)`, front of the
list = next `get_nowait`), and whether the client's single non-reentrant
`threading.Lock` is currently held.  Socket behaviour is abstracted by
oracles: `socketOk` for whether `socket.connect` succeeds and
`sendOk : IPCMessage → Bool` for whether `sendall` of a given message
succeeds.  A computation that blocks forever acquiring the already-held
non-reentrant lock is the `.error .onLock` outcome. -/

/-- Marker for a call that never returns because it blocks acquiring the
client's non-reentrant `threading.Lock` while the same thread already holds
it. -/
inductive Blocked where
  | onLock
  deriving DecidableEq

/-- Mutable state of an `IPCClient`. -/
structure ClientState where
  connected : Bool
  lockHeld : Bool
  queue : List IPCMessage
  deriving DecidableEq

/-- Embedding of `IPCClient._send_message_direct`: acquires `self.lock`
(blocking forever if the calling thread already holds it), returns `False`
if not connected, transmits otherwise; a send error clears `connected` and
returns `False`. -/
def send_message_direct (st : ClientState) (sendOk : IPCMessage → Bool) (msg : IPCMessage) :
    Except Blocked (Bool × ClientState) :=
  if st.lockHeld then .error .onLock
  else if !st.connected then .ok (false, st)
  else if sendOk msg then .ok (true, st)
  else .ok (false, { st with connected := false })

/-- Loop of `IPCClient._flush_queue` over the queue contents: pop the front
message, call `_send_message_direct`; on success continue, on failure
`put_nowait` the failed message back (at the BACK of the FIFO queue) and
break.  Returns the messages transmitted in order, the final `connected`
flag and the final queue contents. -/
def flush_queue_loop (lockHeld : Bool) (sendOk : IPCMessage → Bool) (connected : Bool) :
    List IPCMessage → Except Blocked (List IPCMessage × Bool × List IPCMessage)
  | [] => .ok ([], connected, [])
  | m :: rest =>
    if lockHeld then .error .onLock
    else if !connected then .ok ([], connected, rest ++ [m])
    else if sendOk m then
      match flush_queue_loop lockHeld sendOk connected rest with
      | .error e => .error e
      | .ok (sent, c, q) => .ok (m :: sent, c, q)
    else .ok ([], false, rest ++ [m])

/-- Embedding of `IPCClient._flush_queue` acting on the client state. -/
def flush_queue (st : ClientState) (sendOk : IPCMessage → Bool) :
    Except Blocked (List IPCMessage × ClientState) :=
  match flush_queue_loop st.lockHeld sendOk st.connected st.queue with
  | .error e => .error e
  | .ok (sent, c, q) => .ok (sent, { st with connected := c, queue := q })

/-- Embedding of `IPCClient.connect`: takes `self.lock` for the whole body,
and on a successful socket connect calls `_flush_queue` while still holding
it; each `_send_message_direct` inside the flush re-acquires the same
non-reentrant lock. -/
def connect (st : ClientState) (socketOk : Bool) (sendOk : IPCMessage → Bool) :
    Except Blocked (Bool × ClientState) :=
  if st.lockHeld then .error .onLock
  else
    let st1 : ClientState := { st with lockHeld := true }
    if st1.connected then .ok (true, { st1 with lockHeld := false })
    else if socketOk then
      let st2 : ClientState := { st1 with connected := true }
      match flush_queue st2 sendOk with
      | .error e => .error e
      | .ok (_, st3) => .ok (true, { st3 with lockHeld := false })
    else .ok (false, { st1 with connected := false, lockHeld := false })

/-- Embedding of `IPCClient.send_message`: construct the message; while
disconnected, `put_nowait` it (returning `False`), with `queue.Full` at
capacity dropping it (also returning `False`); while connected, transmit via
`_send_message_direct`. -/
def send_message (st : ClientState) (sendOk : IPCMessage → Bool) (msg_type data : Json)
    (now : ℚ) : Except Blocked (Bool × ClientState) :=
  let message := mkIPCMessage msg_type data none now
  if !st.connected then
    if st.queue.length < Config.MAX_QUEUE_SIZE then
      .ok (false, { st with queue := st.queue ++ [message] })
    else
      .ok (false, st)
  else
    send_message_direct st sendOk message

/-! ## Record store and sync engine
(src/db_manager.py, src/service_watchdog.py)

A monitored-event table (`clipboard_events`, `app_usage`, `screenshots` all
share this shape for sync purposes) is a list of rows.  Only the columns the
sync engine touches are modelled; the content columns ride along unchanged
through every operation and are omitted.  `timestamp` is a `TEXT` ISO-8601
stamp compared lexicographically by `ORDER BY`, which is order-isomorphic to
chronological order; it is modelled as a `Nat` in that order.  The nullable
`synced INTEGER` column is `Option Bool` (`none` = SQL NULL, `some false` =
0, `some true` = 1); `synced_at` is the nullable `TEXT` stamp. -/

/-- Row of one monitored-event table. -/
structure DbRecord where
  id : Nat
  timestamp : Nat
  synced : Option Bool
  synced_at : Option Nat
  deriving DecidableEq

/-- Selection predicate of the sync pass: `WHERE synced IS NULL OR synced = 0`
(src/service_watchdog.py, sync_data_to_server). -/
def syncEligible (r : DbRecord) : Bool :=
  r.synced == none || r.synced == some false

/-- Counting predicate of `DatabaseManager.get_statistics`:
`WHERE synced = 0`.  Under SQL three-valued logic a NULL `synced` makes
`synced = 0` NULL, so such a row is not counted. -/
def statUnsynced (r : DbRecord) : Bool :=
  r.synced == some false

/-- Number of rows `get_statistics` reports as `{table}_unsynced`. -/
def unsyncedCount (table : List DbRecord) : Nat :=
  (table.filter statUnsynced).length

/-- Insertion of a row into a list already in ascending timestamp order,
keeping earlier rows first among equal timestamps. -/
def insertByTimestamp (r : DbRecord) : List DbRecord → List DbRecord
  | [] => [r]
  | x :: xs =>
    if x.timestamp ≤ r.timestamp then x :: insertByTimestamp r xs else r :: x :: xs

/-- Stable sort by ascending timestamp, the `ORDER BY timestamp ASC` of the
sync queries (ISO-8601 `TEXT` stamps compare lexicographically, i.e.
chronologically). -/
def sortByTimestamp (rows : List DbRecord) : List DbRecord :=
  rows.foldr insertByTimestamp []

/-- Batch selection of `sync_data_to_server`:
`WHERE synced IS NULL OR synced = 0 ORDER BY timestamp ASC LIMIT 100`
(the literal 100 is hardcoded in each of the three queries). -/
def selectUnsyncedBatch (table : List DbRecord) : List DbRecord :=
  (sortByTimestamp (table.filter syncEligible)).take 100

/-- The `UPDATE {table} SET synced = 1, synced_at = ? WHERE id IN (...)`
statement: scoped to exactly the given identifiers. -/
def markSynced (ids : List Nat) (now : Nat) (table : List DbRecord) : List DbRecord :=
  table.map fun r =>
    if r.id ∈ ids then { r with synced := some true, synced_at := some now } else r

/-- One record class of one `sync_data_to_server` invocation: select one
batch; if it is empty do nothing, otherwise submit it once to
`_send_to_server` and, if the remote accepts, mark exactly the selected ids.
The first component lists the batches submitted to the server. -/
def sync_pass (table : List DbRecord) (accept : Bool) (now : Nat) :
    List (List DbRecord) × List DbRecord :=
  let batch := selectUnsyncedBatch table
  if batch.isEmpty then ([], table)
  else if accept then ([batch], markSynced (batch.map (·.id)) now table)
  else ([batch], table)

/-- The same pass when other rows are inserted between the `SELECT` and the
`UPDATE` (a concurrent writer during the pass): the selection sees only the
initial table, the update runs over the grown table but its `WHERE id IN`
clause still names only the selected identifiers. -/
def sync_pass_with_inserts (table inserted : List DbRecord) (accept : Bool) (now : Nat) :
    List DbRecord :=
  let batch := selectUnsyncedBatch table
  if batch.isEmpty then table ++ inserted
  else if accept then markSynced (batch.map (·.id)) now (table ++ inserted)
  else table ++ inserted

/-- Operations the repository performs on a monitored-event table:
`log_*` inserts (the INSERT statements never mention `synced`, so the column
takes its schema default 0 and `synced_at` stays NULL; `id` comes from
AUTOINCREMENT), one record class of a `sync_data_to_server` pass, and
`cleanup_old_data` (`DELETE WHERE timestamp < ? AND synced = 1`; the
screenshots variant may also delete old unsynced rows, which likewise never
clears a `synced` flag). -/
inductive DbOp where
  | insert (id timestamp : Nat)
  | syncPass (accept : Bool) (now : Nat)
  | cleanup (cutoff : Nat)
  deriving DecidableEq

/-- Effect of one operation on the table. -/
def applyOp (table : List DbRecord) : DbOp → List DbRecord
  | .insert id ts => table ++ [⟨id, ts, some false, none⟩]
  | .syncPass accept now => (sync_pass table accept now).2
  | .cleanup cutoff =>
    table.filter fun r => !(decide (r.timestamp < cutoff) && (r.synced == some true))

/-- Effect of a sequence of operations. -/
def applyOps (table : List DbRecord) (ops : List DbOp) : List DbRecord :=
  ops.foldl applyOp table

/-- Test for an insert of a given row identifier, used to state that
AUTOINCREMENT never reuses an identifier. -/
def insertsId (i : Nat) : DbOp → Bool
  | .insert id _ => id == i
  | _ => false

/-! ## Concrete values used by counterexamples and witnesses -/

/-- Sample message of kind `"a"`. -/
def mA : IPCMessage := mkIPCMessage (Json.str "a") (Json.obj []) none 0

/-- Sample message of kind `"b"`. -/
def mB : IPCMessage := mkIPCMessage (Json.str "b") (Json.obj []) none 0

/-- Sample message of kind `"c"`. -/
def mC : IPCMessage := mkIPCMessage (Json.str "c") (Json.obj []) none 0

/-- Disconnected client whose outbound queue is at capacity. -/
def stFull : ClientState := ⟨false, false, List.replicate Config.MAX_QUEUE_SIZE mA⟩

/-- Unsynced row with identifier and timestamp `i`. -/
def mkStoreRec (i : Nat) : DbRecord := ⟨i, i, some false, none⟩

/-- Store of exactly 250 unsynced rows, ids and timestamps 0..249. -/
def store250 : List DbRecord := (List.range 250).map mkStoreRec

/-- Store after one accepted sync pass over `store250`. -/
def store250a : List DbRecord := (sync_pass store250 true 1).2

/-- Store after a second accepted sync pass. -/
def store250b : List DbRecord := (sync_pass store250a true 2).2

/-- Store after a third accepted sync pass. -/
def store250c : List DbRecord := (sync_pass store250b true 3).2

/-- The spec's sync-atomicity example: rows 1, 2, 3 unsynced. -/
def tbl3 : List DbRecord := [⟨1, 1, some false, none⟩, ⟨2, 2, some false, none⟩,
  ⟨3, 3, some false, none⟩]

/-- Row 4, inserted concurrently during the pass over `tbl3`. -/
def rec4 : DbRecord := ⟨4, 4, some false, none⟩

/-- Store with one synced and one unsynced row. -/
def tblW : List DbRecord := [⟨1, 1, some true, some 0⟩, ⟨2, 2, some false, none⟩]

/-- Sample operation sequence: an insert, an accepted pass, a cleanup. -/
def opsW : List DbOp := [.insert 3 3, .syncPass true 5, .cleanup 1]

/-! ## Codec theorems -/

/-- Decoding a body that is an object carrying the four standard keys
reduces to the constructor applied to the carried values. -/
theorem from_json_of_four (a b c d : Json) (now : ℚ) :
    IPCMessage.from_json (some (Json.obj [("msg_type", a), ("data", b),
        ("auth_token", c), ("timestamp", d)])) now
      = .ok { msg_type := a, data := b,
              auth_token := if c.truthy then c else Json.str Config.IPC_AUTH_TOKEN,
              timestamp := d } := rfl

/-- Every constructed message carries a truthy token: the constructor
replaces a falsy one by the configured secret, which is a nonempty string. -/
theorem mk_auth_token_truthy (mt d : Json) (tok : Option Json) (t : ℚ) :
    (mkIPCMessage mt d tok t).auth_token.truthy = true := by
  show (if (tok.getD Json.null).truthy then tok.getD Json.null
        else Json.str Config.IPC_AUTH_TOKEN).truthy = true
  cases h : (tok.getD Json.null).truthy
  · simp [h]
    decide
  · simp [h]

/-- C9: for every Envelope `e` whose payload is representable in the
interchange format — every message the client constructs, with any kind,
payload, optional token and creation time — decoding the encoding of `e`
yields an Envelope equal to `e` in every field (`msg_type`, `data`,
`auth_token`, `timestamp`). -/
theorem from_json_to_json_roundtrip (mt d : Json) (tok : Option Json) (t now : ℚ) :
    IPCMessage.from_json (some (mkIPCMessage mt d tok t).to_json) now
      = .ok (mkIPCMessage mt d tok t) := by
  have h1 := from_json_of_four mt d (mkIPCMessage mt d tok t).auth_token (Json.num t) now
  have h2 : (mkIPCMessage mt d tok t).to_json
      = Json.obj [("msg_type", mt), ("data", d),
          ("auth_token", (mkIPCMessage mt d tok t).auth_token), ("timestamp", Json.num t)] := rfl
  rw [h2, h1, mk_auth_token_truthy]
  rfl

/-- C6 counterexample: the encoded body of a client message stores the kind
under the key `"msg_type"`, not under `"kind"` as claimed; the four keys are
`msg_type`, `data`, `auth_token`, `timestamp`. -/
theorem to_json_has_no_kind_key :
    (IPCMessage.to_json mA).keys = ["msg_type", "data", "auth_token", "timestamp"]
    ∧ "kind" ∉ (IPCMessage.to_json mA).keys := by
  decide

/-- C6 amended: for every message produced by the client, the encoded body
is a JSON object whose keys are exactly `msg_type`, `data`, `auth_token` and
`timestamp`, with the message kind stored under `"msg_type"`. -/
theorem to_json_keys (m : IPCMessage) :
    (IPCMessage.to_json m).keys = ["msg_type", "data", "auth_token", "timestamp"] := rfl

/-- C2 counterexample: a frame body missing the credential field
(`auth_token`) decodes successfully — the constructor substitutes the
configured secret — instead of failing with a malformed-frame error. -/
theorem from_json_missing_token_decodes :
    List.lookup "auth_token" [("msg_type", Json.str "ping"), ("data", Json.obj [])]
      = (none : Option Json)
    ∧ IPCMessage.from_json
        (some (Json.obj [("msg_type", Json.str "ping"), ("data", Json.obj [])])) 0
      = .ok ⟨Json.str "ping", Json.obj [], Json.str Config.IPC_AUTH_TOKEN, Json.num 0⟩ :=
  ⟨rfl, rfl⟩

/-- C2 amended: decode fails with a malformed-frame error exactly for a body
that is not valid JSON text, is not an object, or is missing `msg_type` or
`data`; a body missing only `auth_token` decodes, with the credential
defaulting to the configured shared secret. -/
theorem from_json_malformed_characterization (j : Json) (fields : List (String × Json))
    (now : ℚ) :
    IPCMessage.from_json none now = .error .malformed
    ∧ ((∀ fs, j ≠ Json.obj fs) → IPCMessage.from_json (some j) now = .error .malformed)
    ∧ ((fields.lookup "msg_type" = none ∨ fields.lookup "data" = none) →
        IPCMessage.from_json (some (Json.obj fields)) now = .error .malformed)
    ∧ (∀ mt d, fields.lookup "msg_type" = some mt → fields.lookup "data" = some d →
        fields.lookup "auth_token" = none →
        IPCMessage.from_json (some (Json.obj fields)) now
          = .ok ⟨mt, d, Json.str Config.IPC_AUTH_TOKEN,
              (fields.lookup "timestamp").getD (Json.num now)⟩) := by
  refine ⟨rfl, ?_, ?_, ?_⟩
  · intro hobj
    cases j with
    | obj fs => exact absurd rfl (hobj fs)
    | null => rfl
    | bool b => rfl
    | num q => rfl
    | str s => rfl
    | arr xs => rfl
  · intro hmiss
    rcases hmiss with h | h
    · simp [IPCMessage.from_json, h]
    · rcases hmt : fields.lookup "msg_type" with _ | mt
      · simp [IPCMessage.from_json, hmt, h]
      · simp [IPCMessage.from_json, hmt, h]
  · intro mt d hmt hd htok
    simp only [IPCMessage.from_json, hmt, hd, htok, mkIPCMessage]
    rfl

/-- C2 amended, witness: a non-object body fails, a body without `data`
fails, and a body with `msg_type` and `data` but no `auth_token` decodes
with the configured secret. -/
theorem from_json_malformed_characterization_witness :
    IPCMessage.from_json (some (Json.str "x")) 0 = .error .malformed
    ∧ IPCMessage.from_json (some (Json.obj [("data", Json.null)])) 0 = .error .malformed
    ∧ IPCMessage.from_json
        (some (Json.obj [("msg_type", Json.str "p"), ("data", Json.null)])) 0
      = .ok ⟨Json.str "p", Json.null, Json.str Config.IPC_AUTH_TOKEN, Json.num 0⟩ := by
  refine ⟨(from_json_malformed_characterization (Json.str "x") [] 0).2.1 (fun fs => nofun),
    (from_json_malformed_characterization Json.null [("data", Json.null)] 0).2.2.1
      (Or.inl rfl), ?_⟩
  exact (from_json_malformed_characterization Json.null
    [("msg_type", Json.str "p"), ("data", Json.null)] 0).2.2.2
    (Json.str "p") Json.null rfl rfl rfl

/-! ## Transport client theorems -/

/-- Flush loop behaviour when an initial segment transmits and the next
message fails: the failed message is re-appended at the BACK of the queue
and the loop stops. -/
theorem flush_queue_loop_failure (sendOk : IPCMessage → Bool) (pre post : List IPCMessage)
    (mfail : IPCMessage) (hpre : ∀ m ∈ pre, sendOk m = true) (hfail : sendOk mfail = false) :
    flush_queue_loop false sendOk true (pre ++ mfail :: post)
      = .ok (pre, false, post ++ [mfail]) := by
  induction pre with
  | nil => simp [flush_queue_loop, hfail]
  | cons m pre ih =>
    have hm : sendOk m = true := hpre m (by simp)
    have ih2 := ih (fun m2 hm2 => hpre m2 (by simp [hm2]))
    simp [flush_queue_loop, hm, ih2]

/-- C1 counterexample: with three queued messages where the second
transmission fails, the flush transmits the first, stops, and leaves the
queue as `[third, second]` — the failed message is re-queued at the BACK
(`put_nowait` on a FIFO queue), not returned to the front, so the remaining
messages are no longer in their original order. -/
theorem flush_queue_requeues_failed_at_back :
    flush_queue ⟨true, false, [mA, mB, mC]⟩ (fun m => decide (m ≠ mB))
      = .ok ([mA], ⟨false, false, [mC, mB]⟩)
    ∧ [mC, mB] ≠ [mB, mC] := by
  decide

/-- C1 amended: if the queue holds `pre ++ [mfail] ++ post` in enqueue order
and during a flush every message of `pre` transmits while `mfail` fails,
then exactly `pre` is transmitted, in enqueue order, flushing stops, the
client is marked disconnected, and the queue afterwards holds
`post ++ [mfail]`: the unattempted messages keep their order but the failed
message is re-queued at the BACK of the FIFO queue rather than at the
front. -/
theorem flush_queue_stops_at_first_failure (sendOk : IPCMessage → Bool)
    (pre post : List IPCMessage) (mfail : IPCMessage)
    (hpre : ∀ m ∈ pre, sendOk m = true) (hfail : sendOk mfail = false) :
    flush_queue ⟨true, false, pre ++ mfail :: post⟩ sendOk
      = .ok (pre, ⟨false, false, post ++ [mfail]⟩) := by
  simp [flush_queue, flush_queue_loop_failure sendOk pre post mfail hpre hfail]

/-- C1 amended, witness: the concrete three-message instance. -/
theorem flush_queue_stops_at_first_failure_witness :
    flush_queue ⟨true, false, [mA] ++ mB :: [mC]⟩ (fun m => decide (m ≠ mB))
      = .ok ([mA], ⟨false, false, [mC] ++ [mB]⟩) :=
  flush_queue_stops_at_first_failure (fun m => decide (m ≠ mB)) [mA] [mC] mB
    (by decide) (by decide)

/-- C4: on a fresh disconnected client whose socket connect succeeds,
`connect()` with a non-empty outbound queue never returns: it holds the
client's non-reentrant lock while `_flush_queue` calls
`_send_message_direct`, which blocks re-acquiring the same lock.  With an
empty queue the flush loop never sends, so `connect()` returns `True`.
This contradicts the claim that `connect()` always terminates and flushes
the queued messages. -/
theorem connect_blocks_with_nonempty_queue :
    connect ⟨false, false, [mA]⟩ true (fun _ => true) = .error .onLock
    ∧ connect ⟨false, false, []⟩ true (fun _ => true) = .ok (true, ⟨true, false, []⟩) := by
  decide

/-- C5 counterexample: `send_message` on a disconnected client returns
`False` both when the queue is at capacity (message dropped, queue
unchanged) and when the message is enqueued for later delivery, so the
dropped outcome is NOT distinguishable from the enqueued outcome; only
successful transmission (`True`) is distinguished. -/
theorem send_message_dropped_equals_queued_outcome :
    send_message stFull (fun _ => true) (Json.str "t") Json.null 0 = .ok (false, stFull)
    ∧ send_message ⟨false, false, []⟩ (fun _ => true) (Json.str "t") Json.null 0
      = .ok (false, ⟨false, false, [mkIPCMessage (Json.str "t") Json.null none 0]⟩)
    ∧ send_message ⟨true, false, []⟩ (fun _ => true) (Json.str "t") Json.null 0
      = .ok (true, ⟨true, false, []⟩) :=
  ⟨rfl, rfl, rfl⟩

/-- C5 amended: a `send_message` call made while disconnected with the
outbound queue at capacity drops the message and returns `False` with the
state unchanged — an outcome distinct from successful transmission (`True`)
but identical to the `False` returned when the message is enqueued; the
drop is signalled only by a log line and the unchanged queue. -/
theorem send_message_at_capacity_drops (st : ClientState) (sendOk : IPCMessage → Bool)
    (mt d : Json) (now : ℚ) (hdisc : st.connected = false)
    (hfull : Config.MAX_QUEUE_SIZE ≤ st.queue.length) :
    send_message st sendOk mt d now = .ok (false, st) := by
  have hnl : ¬(st.queue.length < Config.MAX_QUEUE_SIZE) := Nat.not_lt.mpr hfull
  simp [send_message, hdisc, hnl]

/-- C5 amended, witness: the full-queue client. -/
theorem send_message_at_capacity_drops_witness :
    send_message stFull (fun _ => true) (Json.str "u") Json.null 0 = .ok (false, stFull) :=
  send_message_at_capacity_drops stFull (fun _ => true) (Json.str "u") Json.null 0 rfl
    (by simp [stFull])

/-! ## Sync engine theorems -/

/-- Membership through timestamp-ordered insertion. -/
theorem mem_insertByTimestamp (r x : DbRecord) (l : List DbRecord) :
    r ∈ insertByTimestamp x l ↔ r = x ∨ r ∈ l := by
  induction l with
  | nil => simp [insertByTimestamp]
  | cons y ys ih =>
    unfold insertByTimestamp
    by_cases h : y.timestamp ≤ x.timestamp
    · simp only [if_pos h, List.mem_cons, ih]
      tauto
    · simp only [if_neg h, List.mem_cons]

/-- Sorting by timestamp neither adds nor removes rows. -/
theorem mem_sortByTimestamp (r : DbRecord) (l : List DbRecord) :
    r ∈ sortByTimestamp l ↔ r ∈ l := by
  induction l with
  | nil => simp [sortByTimestamp]
  | cons x xs ih =>
    show r ∈ insertByTimestamp x (sortByTimestamp xs) ↔ _
    rw [mem_insertByTimestamp]
    simp [ih]

/-- Every row of a selected batch comes from the table and satisfies the
selection predicate. -/
theorem mem_of_mem_selectUnsyncedBatch (r : DbRecord) (table : List DbRecord)
    (h : r ∈ selectUnsyncedBatch table) : r ∈ table ∧ syncEligible r = true := by
  have h1 : r ∈ sortByTimestamp (table.filter syncEligible) := List.take_subset _ _ h
  rw [mem_sortByTimestamp] at h1
  exact ⟨(List.mem_filter.mp h1).1, (List.mem_filter.mp h1).2⟩

/-- Every row surviving one record class of a sync pass is either an
original row untouched or an original row with its flag set to synced. -/
theorem sync_pass_mem (table : List DbRecord) (accept : Bool) (now : Nat)
    (r : DbRecord) (hr : r ∈ (sync_pass table accept now).2) :
    r ∈ table ∨ ∃ r0 ∈ table, r = { r0 with synced := some true, synced_at := some now } := by
  by_cases hb : (selectUnsyncedBatch table).isEmpty
  · have heq : (sync_pass table accept now).2 = table := by simp [sync_pass, hb]
    rw [heq] at hr
    exact Or.inl hr
  · have hb2 : (selectUnsyncedBatch table).isEmpty = false := by simpa using hb
    cases accept with
    | false =>
      have heq : (sync_pass table false now).2 = table := by simp [sync_pass, hb2]
      rw [heq] at hr
      exact Or.inl hr
    | true =>
      have heq : (sync_pass table true now).2
          = markSynced ((selectUnsyncedBatch table).map (·.id)) now table := by
        simp [sync_pass, hb2]
      rw [heq] at hr
      simp only [markSynced] at hr
      obtain ⟨r0, hr0, hfr⟩ := List.mem_map.mp hr
      by_cases hid : r0.id ∈ (selectUnsyncedBatch table).map (·.id)
      · rw [if_pos hid] at hfr
        exact Or.inr ⟨r0, hr0, hfr.symm⟩
      · rw [if_neg hid] at hfr
        rw [← hfr]
        exact Or.inl hr0

/-- C3 counterexample: over a store of exactly 250 unsynced rows with the
remote accepting everything, one invocation of the sync pass submits a
single sub-batch of 100 records — not three sub-batches of 100/100/50 —
and 150 rows remain unsynced afterwards. -/
theorem sync_pass_250_submits_single_batch :
    ((sync_pass store250 true 1).1.map List.length) = [100]
    ∧ ((sync_pass store250 true 1).2.filter syncEligible).length = 150 := by
  decide

/-- C3 amended: one invocation submits exactly one sub-batch holding the 100
oldest unsynced rows and marks exactly those synced; draining all 250 rows
takes three invocations, whose sub-batches hold the rows with timestamps
0..99, 100..199 and 200..249 (counts 100/100/50, each in ascending
timestamp order), after which all 250 rows are marked synced. -/
theorem sync_pass_drains_250_in_three_passes :
    (sync_pass store250 true 1).1 = [(List.range 100).map mkStoreRec]
    ∧ (sync_pass store250a true 2).1 = [(List.range' 100 100).map mkStoreRec]
    ∧ (sync_pass store250b true 3).1 = [(List.range' 200 50).map mkStoreRec]
    ∧ store250c.map (fun r => r.synced) = List.replicate 250 (some true)
    ∧ store250c.map (fun r => r.id) = List.range 250 := by
  decide

/-- C7: when the remote accepts the batch, the update is scoped to exactly
the identifiers selected into the batch: a row of the grown table (original
or inserted mid-pass) whose identifier was not selected survives the pass
unchanged, and every row whose identifier was selected is re-written with
`synced = 1` and the pass's `synced_at`. -/
theorem sync_pass_update_scoped (table inserted : List DbRecord) (now : Nat)
    (r : DbRecord) (hr : r ∈ table ++ inserted) :
    (r.id ∉ (selectUnsyncedBatch table).map (·.id) →
      r ∈ sync_pass_with_inserts table inserted true now)
    ∧ (r.id ∈ (selectUnsyncedBatch table).map (·.id) →
      { r with synced := some true, synced_at := some now }
        ∈ sync_pass_with_inserts table inserted true now) := by
  have hres : sync_pass_with_inserts table inserted true now
      = if (selectUnsyncedBatch table).isEmpty then table ++ inserted
        else markSynced ((selectUnsyncedBatch table).map (·.id)) now (table ++ inserted) :=
    rfl
  by_cases hb : (selectUnsyncedBatch table).isEmpty
  · rw [hres, if_pos hb]
    constructor
    · intro _
      exact hr
    · intro hid
      rw [List.isEmpty_iff.mp hb] at hid
      simp at hid
  · rw [hres, if_neg hb]
    constructor
    · intro hid
      refine List.mem_map.mpr ⟨r, hr, ?_⟩
      rw [if_neg hid]
    · intro hid
      refine List.mem_map.mpr ⟨r, hr, ?_⟩
      rw [if_pos hid]

/-- C7 witness: the spec's atomicity example — rows 1, 2, 3 unsynced and
selected, row 4 inserted mid-pass: row 4 survives unchanged (still
unsynced) while row 1 is re-written as synced. -/
theorem sync_pass_update_scoped_witness :
    rec4 ∈ sync_pass_with_inserts tbl3 [rec4] true 9
    ∧ (⟨1, 1, some true, some 9⟩ : DbRecord) ∈ sync_pass_with_inserts tbl3 [rec4] true 9 := by
  refine ⟨(sync_pass_update_scoped tbl3 [rec4] 9 rec4 (by decide)).1 (by decide), ?_⟩
  exact (sync_pass_update_scoped tbl3 [rec4] 9 ⟨1, 1, some false, none⟩ (by decide)).2
    (by decide)

/-- No operation of the repository lowers a synced flag for a given
identifier, provided the operation does not insert that identifier anew. -/
theorem applyOp_keeps_synced (table : List DbRecord) (op : DbOp) (i : Nat)
    (hsync : ∀ r ∈ table, r.id = i → r.synced = some true)
    (hop : insertsId i op = false) :
    ∀ r ∈ applyOp table op, r.id = i → r.synced = some true := by
  intro r hr hri
  cases op with
  | insert id ts =>
    rcases List.mem_append.mp hr with h1 | h1
    · exact hsync r h1 hri
    · have hr2 : r = ⟨id, ts, some false, none⟩ := by simpa using h1
      subst hr2
      simp only [insertsId, beq_eq_false_iff_ne, ne_eq] at hop
      exact absurd hri hop
  | syncPass accept now =>
    rcases sync_pass_mem table accept now r hr with h1 | ⟨r0, _, heq⟩
    · exact hsync r h1 hri
    · rw [heq]
  | cleanup cutoff =>
    exact hsync r (List.mem_filter.mp hr).1 hri

/-- Synced-flag preservation over an operation sequence. -/
theorem applyOps_keeps_synced (ops : List DbOp) (table : List DbRecord) (i : Nat)
    (hsync : ∀ r ∈ table, r.id = i → r.synced = some true)
    (hfresh : ∀ op ∈ ops, insertsId i op = false) :
    ∀ r ∈ applyOps table ops, r.id = i → r.synced = some true := by
  induction ops generalizing table with
  | nil => simpa [applyOps] using hsync
  | cons op ops ih =>
    have h1 := applyOp_keeps_synced table op i hsync (hfresh op (by simp))
    have h2 := ih (applyOp table op) h1 (fun op2 hop2 => hfresh op2 (by simp [hop2]))
    simpa [applyOps] using h2

/-- C8: once every row carrying an identifier is marked synced, then after
any sequence of repository operations (inserts of fresh AUTOINCREMENT
identifiers, sync passes, retention cleanups) every surviving row with that
identifier is still marked synced — the flag never reverts to unsynced —
and no later pass selects that identifier into a batch again. -/
theorem synced_flag_monotonic (table : List DbRecord) (ops : List DbOp) (i : Nat)
    (hsync : ∀ r ∈ table, r.id = i → r.synced = some true)
    (hfresh : ∀ op ∈ ops, insertsId i op = false) :
    (∀ r ∈ applyOps table ops, r.id = i → r.synced = some true)
    ∧ ∀ r ∈ selectUnsyncedBatch (applyOps table ops), r.id ≠ i := by
  have main := applyOps_keeps_synced ops table i hsync hfresh
  refine ⟨main, ?_⟩
  intro r hr hri
  obtain ⟨hmem, helig⟩ := mem_of_mem_selectUnsyncedBatch r _ hr
  have hs := main r hmem hri
  rw [syncEligible, hs] at helig
  simp at helig

/-- C8 witness: identifier 1 synced in `tblW` stays synced across an
insert, an accepted pass and a cleanup. -/
theorem synced_flag_monotonic_witness :
    (⟨1, 1, some true, some 0⟩ : DbRecord).synced = some true :=
  (synced_flag_monotonic tblW opsW 1 (by decide) (by decide)).1
    ⟨1, 1, some true, some 0⟩ (by decide) rfl

/-- No repository operation writes SQL NULL into the `synced` column. -/
theorem applyOp_no_null_synced (table : List DbRecord) (op : DbOp)
    (h : ∀ r ∈ table, r.synced ≠ none) :
    ∀ r ∈ applyOp table op, r.synced ≠ none := by
  intro r hr
  cases op with
  | insert id ts =>
    rcases List.mem_append.mp hr with h1 | h1
    · exact h r h1
    · have hr2 : r = ⟨id, ts, some false, none⟩ := by simpa using h1
      simp [hr2]
  | syncPass accept now =>
    rcases sync_pass_mem table accept now r hr with h1 | ⟨r0, _, heq⟩
    · exact h r h1
    · simp [heq]
  | cleanup cutoff =>
    exact h r (List.mem_filter.mp hr).1

/-- NULL-freedom of the `synced` column over an operation sequence. -/
theorem applyOps_no_null_synced (ops : List DbOp) (table : List DbRecord)
    (h : ∀ r ∈ table, r.synced ≠ none) :
    ∀ r ∈ applyOps table ops, r.synced ≠ none := by
  induction ops generalizing table with
  | nil => simpa [applyOps] using h
  | cons op ops ih =>
    have h1 := applyOp_no_null_synced table op h
    have h2 := ih (applyOp table op) h1
    simpa [applyOps] using h2

/-- C10: on every reachable row — any row of a store that started without
NULL `synced` values (the schema default is 0 and the migration backfills
0) after any sequence of repository operations — the statistics predicate
`synced = 0` and the sync selection predicate `synced IS NULL OR synced = 0`
agree: a row is counted as unsynced by `get_statistics` exactly when
`sync_data_to_server` may select it. -/
theorem statUnsynced_eq_syncEligible_on_reachable (table : List DbRecord) (ops : List DbOp)
    (hinit : ∀ r ∈ table, r.synced ≠ none) (r : DbRecord) (hr : r ∈ applyOps table ops) :
    statUnsynced r = syncEligible r := by
  have hnn := applyOps_no_null_synced ops table hinit r hr
  rcases hs : r.synced with _ | b
  · exact absurd hs hnn
  · cases b <;> simp [statUnsynced, syncEligible, hs]

/-- C10 witness: the unsynced row 2 of `tblW` after the empty operation
sequence. -/
theorem statUnsynced_eq_syncEligible_witness :
    statUnsynced ⟨2, 2, some false, none⟩ = syncEligible ⟨2, 2, some false, none⟩ :=
  statUnsynced_eq_syncEligible_on_reachable tblW [] (by decide)
    ⟨2, 2, some false, none⟩ (by decide)

end EnterpriseMonitoring
